import Mathlib

/-!
Verification of the pyloquent filter / query-builder core.

This file gives a shallow embedding, in Lean, of the parts of the
pyloquent ORM that concern the filter-condition model, the filter-group
tree and its dict (de)serialization, the query-builder state machine and
its compilation, cursor pagination, chunked traversal, and the
many-to-many sync algorithm, together with theorems settling the spec
claims about them.

Python values are modelled by the inductive type PyVal; Python
exceptions by PyErr; fallible Python code returns Except PyErr.
Definitions mirror the Python source (src/filters, src/builder,
src/relations, src/pagination) statement by statement; doc comments name
the source location each definition embeds.
-/

set_option linter.unusedVariables false

namespace Pyloquent

/-- Model of the Python runtime values that flow through the embedded
fragment: None, booleans, integers, strings, lists (Python tuples are
modelled as lists as well, since the source only ever tests
isinstance(v, (list, tuple)) and iterates), and string-keyed dicts
(modelled as ordered association lists, matching Python dict insertion
order). -/
inductive PyVal where
  | none
  | bool (b : Bool)
  | int (i : Int)
  | str (s : String)
  | list (xs : List PyVal)
  | dict (entries : List (String × PyVal))

mutual

/-- Structural equality on Python values, modelling the == used by the
source (inside list membership tests and dict lookups). -/
def PyVal.beq : PyVal → PyVal → Bool
  | .none, .none => true
  | .bool a, .bool b => a == b
  | .int a, .int b => a == b
  | .str a, .str b => a == b
  | .list a, .list b => PyVal.beqList a b
  | .dict a, .dict b => PyVal.beqDict a b
  | _, _ => false

/-- Elementwise equality of Python lists. -/
def PyVal.beqList : List PyVal → List PyVal → Bool
  | [], [] => true
  | a :: as, b :: bs => PyVal.beq a b && PyVal.beqList as bs
  | _, _ => false

/-- Elementwise equality of Python dict entry lists. -/
def PyVal.beqDict : List (String × PyVal) → List (String × PyVal) → Bool
  | [], [] => true
  | (k1, v1) :: as, (k2, v2) :: bs => k1 == k2 && PyVal.beq v1 v2 && PyVal.beqDict as bs
  | _, _ => false

end

instance : BEq PyVal := ⟨PyVal.beq⟩

/-- Python truthiness (bool(v)): None, False, 0, empty string, empty
list and empty dict are falsy, everything else is truthy. -/
def PyVal.truthy : PyVal → Bool
  | .none => false
  | .bool b => b
  | .int i => i != 0
  | .str s => s != ""
  | .list xs => !xs.isEmpty
  | .dict es => !es.isEmpty

/-- Python identity test v is None. -/
def PyVal.isNone : PyVal → Bool
  | .none => true
  | _ => false

/-- Python isinstance(v, (list, tuple)). -/
def PyVal.isSeq : PyVal → Bool
  | .list _ => true
  | _ => false

/-- Model of the Python exceptions raised by the embedded fragment:
builtin ValueError / TypeError / KeyError / IndexError / RecursionError
plus the pyloquent exception taxonomy (src/exceptions): the classes
InvalidQueryException, ModelNotFoundException, RelationNotLoadedException,
InvalidRelationException and MorphRelationException.  Note the taxonomy
has no dedicated relation-not-found class. -/
inductive PyErr where
  | valueError (msg : String)
  | typeError (msg : String)
  | keyError (key : String)
  | indexError (msg : String)
  | recursionError
  | invalidQuery (msg : String)
  | modelNotFound (model : String)
  | relationNotLoaded (relation : String) (model : String)
  | invalidRelation (msg : String)
  | morphRelation (msg : String)
deriving DecidableEq

/-- Python key in dict. -/
def PyVal.hasKey : PyVal → String → Bool
  | .dict es, k => es.any (fun e => e.1 == k)
  | _, _ => false

/-- Python subscript data[key]: raises KeyError when the key is absent,
TypeError when the value is not a dict. -/
def PyVal.getItem : PyVal → String → Except PyErr PyVal
  | .dict es, k =>
    match es.lookup k with
    | .some v => .ok v
    | .none => .error (.keyError k)
  | _, _ => .error (.typeError "object is not subscriptable")

/-- Python data.get(key): None when the key is absent or the value is
not a dict. -/
def PyVal.getDefault : PyVal → String → PyVal
  | .dict es, k => ((es.lookup k).map id).getD .none
  | _, _ => .none

/-! ### Operator catalog (src/filters/operators.py) -/

/-- String values of the Operator enumeration (src/filters/operators.py,
members EQUAL .. NOT_BETWEEN). -/
def Operator.values : List String :=
  ["=", "!=", ">", ">=", "<", "<=", "LIKE", "ILIKE", "IN", "NOT IN",
   "IS NULL", "IS NOT NULL", "BETWEEN", "NOT BETWEEN"]

/-- Operator.validate: any(op.value == operator for op in cls). -/
def Operator.validate (operator : String) : Bool :=
  Operator.values.any (fun op => op == operator)

/-- Operator.validate applied to an arbitrary Python value: the
comparison op.value == operator is False for every non-string. -/
def Operator.validateVal : PyVal → Bool
  | .str s => Operator.validate s
  | _ => false

/-- Operator.requires_value: false only for IS NULL / IS NOT NULL. -/
def Operator.requires_value (operator : String) : Bool :=
  !(operator == "IS NULL" || operator == "IS NOT NULL")

/-- Operator.requires_array: true for IN / NOT IN / BETWEEN / NOT BETWEEN. -/
def Operator.requires_array (operator : String) : Bool :=
  operator == "IN" || operator == "NOT IN" ||
    operator == "BETWEEN" || operator == "NOT BETWEEN"

/-- Operator.is_pattern_match: true for LIKE / ILIKE. -/
def Operator.is_pattern_match (operator : String) : Bool :=
  operator == "LIKE" || operator == "ILIKE"

/-! ### FilterCondition (src/filters/filter_condition.py) -/

/-- Constructed filter condition: the dataclass fields field / operator /
value.  After a successful __post_init__ the operator is always one of
the catalog strings, so the operator slot is a String. -/
structure FilterCondition where
  field : String
  operator : String
  value : PyVal

/-- Constructor of FilterCondition together with its __post_init__
validation (src/filters/filter_condition.py lines 25-42).  The operator
argument is an arbitrary Python value, as in the two-argument sugar form
FilterCondition(field, value): when value is None and the operator
argument does not validate, the operator argument is reinterpreted as
the value and the operator defaults to =. -/
def FilterCondition.make (field : String) (operator : PyVal) (value : PyVal) :
    Except PyErr FilterCondition :=
  let swapped := PyVal.isNone value && !(Operator.validateVal operator)
  let op := if swapped then PyVal.str "=" else operator
  let v := if swapped then operator else value
  match op with
  | .str opStr =>
    if !(Operator.validate opStr) then
      .error (.valueError ("Invalid operator: " ++ opStr))
    else if Operator.requires_value opStr && PyVal.isNone v then
      .error (.valueError ("Operator " ++ opStr ++ " requires a value"))
    else if Operator.requires_array opStr && !(PyVal.isSeq v) then
      .error (.valueError ("Operator " ++ opStr ++ " requires an array of values"))
    else
      .ok ⟨field, opStr, v⟩
  | _ =>
    -- a non-string operator never validates, so Operator.validate fails
    .error (.valueError "Invalid operator: non-string")

/-- FilterCondition.to_dict: the dict with keys field / operator / value
(src/filters/filter_condition.py lines 44-50). -/
def FilterCondition.to_dict (c : FilterCondition) : PyVal :=
  .dict [("field", .str c.field), ("operator", .str c.operator), ("value", c.value)]

/-- FilterCondition.from_dict (src/filters/filter_condition.py lines
52-59): cls(field=data[field], operator=data[operator],
value=data.get(value)).  The stored field is a string in every dict the
source produces, so the embedding requires a string there. -/
def FilterCondition.from_dict (data : PyVal) : Except PyErr FilterCondition :=
  match data.getItem "field" with
  | .error e => .error e
  | .ok fieldVal =>
    match data.getItem "operator" with
    | .error e => .error e
    | .ok opVal =>
      match fieldVal with
      | .str f => FilterCondition.make f opVal (data.getDefault "value")
      | _ => .error (.typeError "field must be a string")

/-! ### FilterGroup (src/filters/filter_group.py) -/

/-- LogicalOperator enumeration (src/filters/interfaces.py). -/
inductive LogicalOperator where
  | AND
  | OR
deriving DecidableEq

/-- Value of a LogicalOperator member. -/
def LogicalOperator.value : LogicalOperator → String
  | .AND => "AND"
  | .OR => "OR"

/-- LogicalOperator(v): the Enum call, raising ValueError for anything
that is not the string AND or OR. -/
def LogicalOperator.ofVal : PyVal → Except PyErr LogicalOperator
  | .str "AND" => .ok .AND
  | .str "OR" => .ok .OR
  | .str s => .error (.valueError (s ++ " is not a valid LogicalOperator"))
  | _ => .error (.valueError "not a valid LogicalOperator")

/-- Node of a filter-group tree: either a leaf FilterCondition or a
nested group (a FilterGroup flattened into the node). -/
inductive FilterNode where
  | cond (c : FilterCondition)
  | group (operator : LogicalOperator) (conditions : List FilterNode)

/-- FilterGroup: logical operator plus the ordered children list
(src/filters/filter_group.py lines 22-24). -/
structure FilterGroup where
  operator : LogicalOperator
  conditions : List FilterNode

/-- FilterGroup.add: appends a condition or sub-group. -/
def FilterGroup.add (g : FilterGroup) (condition : FilterNode) : FilterGroup :=
  { g with conditions := g.conditions ++ [condition] }

/-- View of a FilterGroup as a FilterNode. -/
def FilterGroup.node (g : FilterGroup) : FilterNode :=
  .group g.operator g.conditions

mutual

/-- Dict form of a filter node: a leaf delegates to
FilterCondition.to_dict, a group to the FilterGroup.to_dict shape. -/
def FilterNode.toDict : FilterNode → PyVal
  | .cond c => c.to_dict
  | .group op conds =>
    .dict [("operator", .str op.value), ("conditions", .list (FilterNode.listToDict conds))]

/-- Dict forms of a list of children, in order. -/
def FilterNode.listToDict : List FilterNode → List PyVal
  | [] => []
  | n :: ns => FilterNode.toDict n :: FilterNode.listToDict ns

end

/-- FilterGroup.to_dict (src/filters/filter_group.py lines 53-58):
operator value plus the list of the children's dicts. -/
def FilterGroup.to_dict (g : FilterGroup) : PyVal :=
  .dict [("operator", .str g.operator.value),
         ("conditions", .list (FilterNode.listToDict g.conditions))]

mutual

/-- FilterGroup.from_dict (src/filters/filter_group.py lines 60-71),
with an explicit recursion budget modelling the CPython recursion limit:
group = cls(LogicalOperator(data[operator])), then each element of
data[conditions] is dispatched as a sub-group when the string operator
is one of its keys and as a FilterCondition otherwise. -/
def FilterGroup.fromDictFuel : Nat → PyVal → Except PyErr FilterGroup
  | 0, _ => .error .recursionError
  | Nat.succ fuel, data =>
    match data.getItem "operator" with
    | .error e => .error e
    | .ok opVal =>
      match LogicalOperator.ofVal opVal with
      | .error e => .error e
      | .ok op =>
        match data.getItem "conditions" with
        | .error e => .error e
        | .ok condsVal =>
          match condsVal with
          | .list items =>
            match FilterGroup.childrenFromDicts fuel items with
            | .error e => .error e
            | .ok children => .ok ⟨op, children⟩
          | _ => .error (.typeError "conditions is not iterable")

/-- Deserialization of the children list: the loop body of
FilterGroup.from_dict, dispatching each child dict on whether it has an
operator key. -/
def FilterGroup.childrenFromDicts : Nat → List PyVal → Except PyErr (List FilterNode)
  | _, [] => .ok []
  | 0, _ :: _ => .error .recursionError
  | Nat.succ fuel, d :: ds =>
    let child : Except PyErr FilterNode :=
      if d.hasKey "operator" then
        match FilterGroup.fromDictFuel fuel d with
        | .error e => .error e
        | .ok g => .ok g.node
      else
        match FilterCondition.from_dict d with
        | .error e => .error e
        | .ok c => .ok (.cond c)
    match child with
    | .error e => .error e
    | .ok n =>
      match FilterGroup.childrenFromDicts fuel ds with
      | .error e => .error e
      | .ok ns => .ok (n :: ns)

end

/-- FilterGroup.from_dict with the full recursion budget (the CPython
default recursion limit is 1000, ample for every dict the source
serializes). -/
def FilterGroup.from_dict (data : PyVal) : Except PyErr FilterGroup :=
  FilterGroup.fromDictFuel 1000 data

/-! ### Row semantics

The executor and row mapper are external collaborators (spec section 6):
a result row is modelled as an attribute list, and executing a compiled
query against a data source is modelled by evaluating its predicates
over a list of such rows. -/

/-- Result row: named attribute values of one mapped entity. -/
abbrev Row := List (String × PyVal)

/-- Attribute access on a row (the entity field accessor /
get_attribute); an absent column reads as SQL NULL. -/
def getAttr (r : Row) (field : String) : PyVal :=
  ((r.lookup field).map id).getD .none

/-- Python str.lower, mapped over the characters (ASCII as the source
uses it). -/
def strLower (s : String) : String :=
  ⟨s.data.map Char.toLower⟩

/-- SQL comparison of two values: defined on like-typed ints, strings
and booleans, undefined (None-ish, comparing as unknown) otherwise. -/
def pyCompare : PyVal → PyVal → Option Ordering
  | .int a, .int b => some (compare a b)
  | .str a, .str b => some (compare a b)
  | .bool a, .bool b => some (compare a b)
  | _, _ => .none

/-- SQL <=: true when the comparison is defined and not greater. -/
def pyLe (a b : PyVal) : Bool :=
  match pyCompare a b with
  | some Ordering.lt => true
  | some Ordering.eq => true
  | _ => false

/-- Comparison operators dispatched by the fallback branch of
_build_condition, column.op(operator)(value): an undefined comparison
(for example against NULL) never matches, as in SQL. -/
def pyCmpOp (operator : String) (a b : PyVal) : Bool :=
  match pyCompare a b with
  | .none => false
  | some o =>
    if operator == "=" then o == Ordering.eq
    else if operator == "!=" then o != Ordering.eq
    else if operator == ">" then o == Ordering.gt
    else if operator == ">=" then o != Ordering.lt
    else if operator == "<" then o == Ordering.lt
    else if operator == "<=" then o != Ordering.gt
    else false

/-- SQL LIKE matching over character lists with percent and underscore
wildcards, with an explicit step budget (the recursion is bounded by the
product of the lengths). -/
def likeFuel : Nat → List Char → List Char → Bool
  | 0, _, _ => false
  | Nat.succ _, [], s => s.isEmpty
  | Nat.succ fuel, p :: ps, s =>
    if p == '%' then
      likeFuel fuel ps s ||
        (match s with
         | [] => false
         | _ :: s2 => likeFuel fuel (p :: ps) s2)
    else
      match s with
      | [] => false
      | c :: s2 => (p == '_' || p == c) && likeFuel fuel ps s2

/-- SQL LIKE on strings. -/
def likeMatch (pattern s : String) : Bool :=
  likeFuel ((pattern.length + 1) * (s.length + 1) + 1) pattern.toList s.toList

/-- Truth value of one condition on one row: the semantics of the
expression returned by QueryBuilder._build_condition
(src/builder/query_builder.py lines 552-588), dispatching on the
operator exactly as the source does. -/
def FilterCondition.holds (c : FilterCondition) (r : Row) : Bool :=
  let column := getAttr r c.field
  if c.operator == "IS NULL" then column.isNone
  else if c.operator == "IS NOT NULL" then !column.isNone
  else if c.operator == "IN" then
    match c.value with
    | .list vs => vs.any (fun v => PyVal.beq column v)
    | _ => false
  else if c.operator == "NOT IN" then
    match c.value with
    | .list vs => !(vs.any (fun v => PyVal.beq column v))
    | _ => false
  else if c.operator == "BETWEEN" then
    match c.value with
    | .list [lo, hi] => pyLe lo column && pyLe column hi
    | _ => false
  else if c.operator == "NOT BETWEEN" then
    match c.value with
    | .list [lo, hi] => !(pyLe lo column && pyLe column hi)
    | _ => false
  else if c.operator == "LIKE" then
    match column, c.value with
    | .str s, .str p => likeMatch p s
    | _, _ => false
  else if c.operator == "ILIKE" then
    match column, c.value with
    | .str s, .str p => likeMatch (strLower p) (strLower s)
    | _, _ => false
  else pyCmpOp c.operator column c.value

/-- Expression-construction checks of _build_condition: building
column.between(*value) raises a TypeError unless the value unpacks to
exactly the two bound arguments, and column.in_(value) requires a
sequence.  These failures happen while the query is compiled, before
any row is examined. -/
def checkCondition (c : FilterCondition) : Except PyErr Unit :=
  if c.operator == "BETWEEN" || c.operator == "NOT BETWEEN" then
    match c.value with
    | .list [_, _] => .ok ()
    | .list _ => .error (.typeError "between expects exactly two bound arguments")
    | _ => .error (.typeError "between expects a sequence")
  else if c.operator == "IN" || c.operator == "NOT IN" then
    match c.value with
    | .list _ => .ok ()
    | _ => .error (.typeError "in_ expects a sequence")
  else .ok ()

/-! ### QueryBuilder state (src/builder/query_builder.py) -/

/-- Predicates injected directly into the underlying select by
where_has / where_doesnt_have: the correlated EXISTS / NOT EXISTS
subquery over a relation.  The subquery itself involves the external
relation descriptor and executor (spec section 6), so its row semantics
is a parameter of evaluation. -/
inductive QueryExtra where
  | existsSub (relation : String)
  | notExistsSub (relation : String)
deriving DecidableEq

/-- Model class as the builder sees it: its name and the relation
accessors declared on it (what hasattr(self.model, relation) finds). -/
structure ModelDecl where
  name : String
  relations : List String

/-- Cursor state recorded by cursor_paginate (_cursor). -/
structure CursorSpec where
  field : String
  after : PyVal
  before : PyVal

/-- Builder state (QueryBuilder.__init__, src/builder/query_builder.py
lines 49-60): the base select (modelled by the injected extras), the
AND filter list, the OR filter groups, eager-load requests (keys in
insertion order; configuration callbacks are external), sort specs,
group-by columns, limit, offset, cursor spec, and the after-load marks
registered by with_. -/
structure Builder where
  model : ModelDecl
  queryExtras : List QueryExtra
  filters : List FilterCondition
  orFilters : List FilterGroup
  eagerLoads : List String
  orders : List (String × String)
  groups : List String
  limit : Option Int
  offset : Option Int
  cursor : Option CursorSpec
  afterLoadMarks : List String

/-- Fresh builder for a model (QueryBuilder.__init__). -/
def Builder.init (model : ModelDecl) : Builder :=
  ⟨model, [], [], [], [], [], [], .none, .none, .none, []⟩

/-- QueryBuilder.where: validates and appends one FilterCondition to the
top-level AND list. -/
def Builder.where (b : Builder) (column : String) (operator : PyVal) (value : PyVal) :
    Except PyErr Builder :=
  match FilterCondition.make column operator value with
  | .error e => .error e
  | .ok c => .ok { b with filters := b.filters ++ [c] }

/-- QueryBuilder.or_where: wraps one condition in a fresh (AND) group
and appends it to the OR group list. -/
def Builder.or_where (b : Builder) (column : String) (operator : PyVal) (value : PyVal) :
    Except PyErr Builder :=
  match FilterCondition.make column operator value with
  | .error e => .error e
  | .ok c => .ok { b with orFilters := b.orFilters ++ [⟨.AND, [.cond c]⟩] }

/-- Python dict key insertion for the eager-load mapping: a new key is
appended, an existing key keeps its position (its callback value is
overwritten, which the key list does not record). -/
def dictSetKey (keys : List String) (k : String) : List String :=
  if keys.contains k then keys else keys ++ [k]

/-- QueryBuilder.with_ (src/builder/query_builder.py lines 264-287):
records the eager-load request and registers the after-load callback
marking the relation as loaded.  Note it performs no validation of the
relation name and cannot fail. -/
def Builder.with_ (b : Builder) (relation : String) : Builder :=
  { b with
    eagerLoads := dictSetKey b.eagerLoads relation,
    afterLoadMarks := b.afterLoadMarks ++ [relation] }

/-- QueryBuilder.where_has (src/builder/query_builder.py lines 180-220):
raises InvalidQueryException when the relation accessor is not declared
on the model, otherwise injects the correlated EXISTS predicate into the
underlying select (the subquery construction itself involves the
external relation descriptor; the callback constraints live inside the
injected predicate). -/
def Builder.where_has (b : Builder) (relation : String) : Except PyErr Builder :=
  if !(b.model.relations.contains relation) then
    .error (.invalidQuery ("Relation " ++ relation ++ " not found on " ++ b.model.name))
  else
    .ok { b with queryExtras := b.queryExtras ++ [.existsSub relation] }

/-- QueryBuilder.where_doesnt_have (src/builder/query_builder.py lines
222-262): same check, injecting the NOT EXISTS predicate. -/
def Builder.where_doesnt_have (b : Builder) (relation : String) : Except PyErr Builder :=
  if !(b.model.relations.contains relation) then
    .error (.invalidQuery ("Relation " ++ relation ++ " not found on " ++ b.model.name))
  else
    .ok { b with queryExtras := b.queryExtras ++ [.notExistsSub relation] }

/-- QueryBuilder.order_by (src/builder/query_builder.py lines 289-301):
lower-cases the direction, rejects anything but asc / desc with
InvalidQueryException, then appends the sort spec. -/
def Builder.order_by (b : Builder) (column : String) (direction : String) :
    Except PyErr Builder :=
  let direction := strLower direction
  if !(direction == "asc" || direction == "desc") then
    .error (.invalidQuery ("Invalid direction: " ++ direction))
  else
    .ok { b with orders := b.orders ++ [(column, direction)] }

/-- QueryBuilder.order_by_desc. -/
def Builder.order_by_desc (b : Builder) (column : String) : Except PyErr Builder :=
  b.order_by column "desc"

/-- QueryBuilder.group_by: extends the group-by column list. -/
def Builder.group_by (b : Builder) (columns : List String) : Builder :=
  { b with groups := b.groups ++ columns }

/-- QueryBuilder.take (src/builder/query_builder.py lines 317-327): the
negativity check precedes the assignment to _limit, so a failing call
leaves the builder untouched (the error carries no updated state). -/
def Builder.take (b : Builder) (limit : Int) : Except PyErr Builder :=
  if limit < 0 then .error (.invalidQuery "The limit must be positive")
  else .ok { b with limit := some limit }

/-- QueryBuilder.skip (src/builder/query_builder.py lines 329-339):
same shape for _offset. -/
def Builder.skip (b : Builder) (offset : Int) : Except PyErr Builder :=
  if offset < 0 then .error (.invalidQuery "The offset must be positive")
  else .ok { b with offset := some offset }

/-! ### Compilation (_build_query) and execution -/

/-- Compiled query representation produced by _build_query: the injected
extras, the AND-folded conditions, the OR groups (flattened to their
condition children, as _build_query reads group.conditions), the sort
specs in declaration order, group-bys, limit and offset. -/
structure CompiledQuery where
  extras : List QueryExtra
  filters : List FilterCondition
  orGroups : List (List FilterCondition)
  orders : List (String × String)
  groups : List String
  limit : Option Int
  offset : Option Int

/-- Expression construction for the AND filter list. -/
def checkConditions : List FilterCondition → Except PyErr Unit
  | [] => .ok ()
  | c :: cs =>
    match checkCondition c with
    | .error e => .error e
    | .ok _ => checkConditions cs

/-- Expression construction for one OR group: _build_query applies
_build_condition to every child of the group, which reads
condition.field, so a nested sub-group raises AttributeError there. -/
def orGroupConds : List FilterNode → Except PyErr (List FilterCondition)
  | [] => .ok []
  | FilterNode.cond c :: ns =>
    match checkCondition c with
    | .error e => .error e
    | .ok _ =>
      match orGroupConds ns with
      | .error e => .error e
      | .ok cs => .ok (c :: cs)
  | FilterNode.group _ _ :: _ =>
    .error (.typeError "FilterGroup object has no attribute field")

/-- Expression construction for the OR group list. -/
def buildOrGroups : List FilterGroup → Except PyErr (List (List FilterCondition))
  | [] => .ok []
  | g :: gs =>
    match orGroupConds g.conditions with
    | .error e => .error e
    | .ok cs =>
      match buildOrGroups gs with
      | .error e => .error e
      | .ok css => .ok (cs :: css)

/-- QueryBuilder._build_query (src/builder/query_builder.py lines
516-550): folds the accumulated state into one compiled query.  Column
attributes referenced by orders and group-bys resolve on the external
entity type and are assumed declared. -/
def Builder.buildQuery (b : Builder) : Except PyErr CompiledQuery :=
  match checkConditions b.filters with
  | .error e => .error e
  | .ok _ =>
    match buildOrGroups b.orFilters with
    | .error e => .error e
    | .ok ogs =>
      .ok ⟨b.queryExtras, b.filters, ogs, b.orders, b.groups, b.limit, b.offset⟩

/-- WHERE clause of a compiled query on one row: every injected extra
(under the supplied external semantics ext), AND of all top-level
conditions, and, when OR groups are present, OR over the groups of the
AND of their children — exactly the and_/or_ folding of _build_query. -/
def rowMatches (ext : QueryExtra → Row → Bool) (q : CompiledQuery) (r : Row) : Bool :=
  q.extras.all (fun x => ext x r) &&
    q.filters.all (fun c => c.holds r) &&
    (q.orGroups.isEmpty || q.orGroups.any (fun g => g.all (fun c => c.holds r)))

/-- Multi-key comparison induced by the ORDER BY list: the
first-declared sort spec is the primary key; later specs are consulted
only on ties (or on comparisons SQL leaves undefined). -/
def rowLe (orders : List (String × String)) (r1 r2 : Row) : Bool :=
  match orders with
  | [] => true
  | (col, dir) :: rest =>
    let a := getAttr r1 col
    let b := getAttr r2 col
    let x := if dir == "desc" then b else a
    let y := if dir == "desc" then a else b
    match pyCompare x y with
    | some Ordering.lt => true
    | some Ordering.gt => false
    | _ => rowLe rest r1 r2

/-- Ordered insertion for the sort below. -/
def insertLe (le : Row → Row → Bool) (x : Row) : List Row → List Row
  | [] => [x]
  | y :: ys => if le x y then x :: y :: ys else y :: insertLe le x ys

/-- Insertion sort by a boolean comparison: the row ordering the
executor applies for the ORDER BY clause. -/
def sortRows (le : Row → Row → Bool) : List Row → List Row
  | [] => []
  | x :: xs => insertLe le x (sortRows le xs)

/-- Group key of a row under the GROUP BY columns. -/
def groupKey (cols : List String) (r : Row) : List PyVal :=
  cols.map (getAttr r)

/-- GROUP BY collapsing: one representative row per distinct key, first
occurrence kept, applied only when group-by columns are present. -/
def dedupByKeys (cols : List String) (seen : List (List PyVal)) : List Row → List Row
  | [] => []
  | r :: rs =>
    let k := groupKey cols r
    if seen.any (fun k2 => PyVal.beqList k2 k) then dedupByKeys cols seen rs
    else r :: dedupByKeys cols (k :: seen) rs

/-- GROUP BY stage of evaluation. -/
def applyGroups (cols : List String) (rows : List Row) : List Row :=
  if cols.isEmpty then rows else dedupByKeys cols [] rows

/-- Execution of a compiled query over a data source (the external
executor, spec section 6): filter by the WHERE clause, collapse
group-bys, order, then apply offset and limit — the SQL pipeline the
compiled select denotes.  ext gives the row semantics of the injected
EXISTS subqueries. -/
def CompiledQuery.eval (ext : QueryExtra → Row → Bool) (q : CompiledQuery)
    (t : List Row) : List Row :=
  let matched := t.filter (rowMatches ext q)
  let grouped := applyGroups q.groups matched
  let sorted := sortRows (rowLe q.orders) grouped
  let offed :=
    match q.offset with
    | .none => sorted
    | some o => sorted.drop o.toNat
  match q.limit with
  | .none => offed
  | some l => offed.take l.toNat

/-- QueryBuilder.get: compile and execute.  The after-load callbacks run
for their side effects on the mapped entities and do not change the
returned rows. -/
def Builder.get (b : Builder) (ext : QueryExtra → Row → Bool) (t : List Row) :
    Except PyErr (List Row) :=
  match b.buildQuery with
  | .error e => .error e
  | .ok q => .ok (q.eval ext t)

/-- QueryBuilder.count (src/builder/query_builder.py lines 473-490):
builds the subquery with _build_query — including its limit, offset and
order state — and counts the rows of that subquery. -/
def Builder.count (b : Builder) (ext : QueryExtra → Row → Bool) (t : List Row) :
    Except PyErr Nat :=
  match b.buildQuery with
  | .error e => .error e
  | .ok q => .ok ((q.eval ext t).length)

/-! ### Chunked traversal (QueryBuilder.chunk) -/

/-- Loop body of QueryBuilder.chunk (src/builder/query_builder.py lines
650-680): page after page, skip((page-1)*count).take(count).get(), stop
on an empty page, deliver a short page and stop, otherwise deliver and
continue on the same (mutated) builder.  The returned list collects the
pages passed to the callback.  The explicit budget models the fact that
the Python loop is unbounded; the chunk wrapper below supplies a budget
large enough that it is never exhausted for positive chunk sizes. -/
def Builder.chunkLoop (b : Builder) (ext : QueryExtra → Row → Bool) (t : List Row)
    (count page : Int) : Nat → Except PyErr (List (List Row))
  | 0 => .error .recursionError
  | Nat.succ fuel =>
    match b.skip ((page - 1) * count) with
    | .error e => .error e
    | .ok b1 =>
      match b1.take count with
      | .error e => .error e
      | .ok b2 =>
        match b2.get ext t with
        | .error e => .error e
        | .ok results =>
          if results.isEmpty then .ok []
          else if (results.length : Int) < count then .ok [results]
          else
            match Builder.chunkLoop b2 ext t count (page + 1) fuel with
            | .error e => .error e
            | .ok rest => .ok (results :: rest)

/-- QueryBuilder.chunk: runs the page loop from page 1 and returns True
together with the collected callback pages. -/
def Builder.chunk (b : Builder) (ext : QueryExtra → Row → Bool) (t : List Row)
    (count : Int) : Except PyErr (List (List Row) × Bool) :=
  match Builder.chunkLoop b ext t count 1 (t.length + 1) with
  | .error e => .error e
  | .ok pages => .ok (pages, true)

/-! ### Cursor pagination -/

/-- CursorPaginator state (src/pagination/cursor_paginator.py lines
23-37). -/
structure CursorPaginator where
  items : List Row
  has_more : Bool
  cursor_field : String
  limit : Int
  next_cursor : PyVal
  previous_cursor : PyVal

/-- Python slice items[:limit]: a negative bound counts from the end. -/
def pyTake (xs : List Row) (i : Int) : List Row :=
  if i < 0 then xs.take (xs.length - i.natAbs) else xs.take i.toNat

/-- QueryBuilder.cursor_paginate (src/builder/query_builder.py lines
376-422): records the cursor spec, takes limit+1 rows, applies the
lower-bound filter when after is truthy, else the upper-bound filter
when before is truthy, fetches, trims to limit when a surplus row
signals a next page, and reports the cursor edges; items[-1] raises
IndexError when the trimmed page is empty. -/
def Builder.cursor_paginate (b : Builder) (ext : QueryExtra → Row → Bool)
    (t : List Row) (cursor_field : String) (limit : Int) (after before : PyVal) :
    Except PyErr CursorPaginator :=
  let b0 : Builder := { b with cursor := some ⟨cursor_field, after, before⟩ }
  match b0.take (limit + 1) with
  | .error e => .error e
  | .ok b1 =>
    let filtered : Except PyErr Builder :=
      if after.truthy then b1.where cursor_field (.str ">") after
      else if before.truthy then b1.where cursor_field (.str "<") before
      else .ok b1
    match filtered with
    | .error e => .error e
    | .ok b2 =>
      match b2.get ext t with
      | .error e => .error e
      | .ok items0 =>
        let has_more := (items0.length : Int) > limit
        let items := if has_more then pyTake items0 limit else items0
        let next :=
          if has_more then
            match items.getLast? with
            | some r => Except.ok (getAttr r cursor_field)
            | .none => Except.error (PyErr.indexError "list index out of range")
          else Except.ok PyVal.none
        match next with
        | .error e => .error e
        | .ok next_cursor =>
          let previous_cursor :=
            if !items.isEmpty then ((items.head?.map (fun r => getAttr r cursor_field)).getD .none)
            else PyVal.none
          .ok ⟨items, has_more, cursor_field, limit, next_cursor, previous_cursor⟩

/-! ### ManyToMany.sync (src/relations/many_to_many.py) -/

/-- Modelled from the spec: the helpers current_pivot_ids and _get_ids
called by ManyToMany.sync are not under src (only sync itself is).  Per
spec section 4.5, sync "diffs the desired id set against current pivot
rows", so _get_ids of an id list is exactly the set of those ids, and
current_pivot_ids is the set of related ids currently present in the
pivot table for the parent, which the embedding takes as a parameter. -/
def getIds (ids : List Int) : Finset Int :=
  ids.toFinset

/-- Pivot mutations issued by one sync call: the id set passed to
detach and the id set passed to attach, or none when the corresponding
call is skipped because its set is empty. -/
structure SyncOps where
  detached : Option (Finset Int)
  attached : Option (Finset Int)
deriving DecidableEq

/-- ManyToMany.sync (src/relations/many_to_many.py lines 122-150):
detach = current - set(ids), attach = set(ids) - current, each call
issued only when its set is non-empty. -/
def ManyToMany.sync (current : Finset Int) (ids : List Int) : SyncOps :=
  let detach := current \ getIds ids
  let attach := getIds ids \ current
  ⟨if detach ≠ ∅ then some detach else .none,
   if attach ≠ ∅ then some attach else .none⟩

/-- Ids a SyncOps touches on the detach side. -/
def SyncOps.detachedIds (ops : SyncOps) : Finset Int :=
  ops.detached.getD ∅

/-- Ids a SyncOps touches on the attach side. -/
def SyncOps.attachedIds (ops : SyncOps) : Finset Int :=
  ops.attached.getD ∅

/-- Effect of the issued calls on the pivot table: detach deletes the
pivot rows of the listed related ids, attach inserts the listed ids. -/
def SyncOps.applyTo (ops : SyncOps) (current : Finset Int) : Finset Int :=
  (current \ ops.detachedIds) ∪ ops.attachedIds

/-- Membership of an error in the relation-exception family of the
taxonomy (RelationException subclasses, src/exceptions/relation.py). -/
def isRelationErr (e : PyErr) : Bool :=
  match e with
  | .relationNotLoaded _ _ => true
  | .invalidRelation _ => true
  | .morphRelation _ => true
  | _ => false

/-- Row count of the offset / limit window over n rows: what the drop /
take stages of evaluation leave. -/
def windowLen (lim off : Option Int) (n : Nat) : Nat :=
  let a := match off with
    | Option.none => n
    | some o => n - o.toNat
  match lim with
  | Option.none => a
  | some l => min l.toNat a

/-- Compiled query with its limit and offset cleared: the full matching
row sequence it would produce before windowing. -/
def CompiledQuery.unlimited (q : CompiledQuery) : CompiledQuery :=
  { q with limit := Option.none, offset := Option.none }

/-- Reference shape of the chunk loop over the full matching row list:
the successive pages of the given size (with the same budget convention
as Builder.chunkLoop). -/
def chunkSlices (c : Nat) : Nat → List Row → List (List Row)
  | 0, _ => []
  | Nat.succ fuel, xs =>
    let res := xs.take c
    if res.isEmpty then []
    else if res.length < c then [res]
    else res :: chunkSlices c fuel (xs.drop c)

/-! ## Theorems settling the claims -/

/-- Claim C1: the to_dict / from_dict round-trip on FilterGroup trees.
The claim asserts the round-trip reconstructs every tree whose leaves
are valid FilterConditions and that deserialization dispatches a child
as a sub-group exactly when it has the group shape (operator plus
conditions key).  The code instead dispatches on the presence of an
operator key alone, and a serialized leaf condition also carries an
operator key, so deserializing the one-condition group AND[age >= 18]
misroutes the leaf into the group branch and raises ValueError at
LogicalOperator(">=") instead of reconstructing the group: the theorem
evaluates the code at this failing input. -/
theorem c1_group_dict_roundtrip_crashes_on_condition_leaf :
    FilterGroup.to_dict ⟨.AND, [.cond ⟨"age", ">=", .int 18⟩]⟩ =
      .dict [("operator", .str "AND"),
             ("conditions",
              .list [.dict [("field", .str "age"), ("operator", .str ">="),
                            ("value", .int 18)]])] ∧
    FilterGroup.from_dict (FilterGroup.to_dict ⟨.AND, [.cond ⟨"age", ">=", .int 18⟩]⟩) =
      .error (.valueError (">= is not a valid LogicalOperator")) :=
  ⟨rfl, rfl⟩

/-- Helper for claim C3: a recognized operator that requires a value and
an array rejects every non-sequence value at construction. -/
theorem make_array_rejects (f : String) (v : PyVal) (op : String)
    (hval : Operator.validate op = true)
    (hreq : Operator.requires_value op = true)
    (harr : Operator.requires_array op = true)
    (hseq : v.isSeq = false) :
    ∃ e, FilterCondition.make f (.str op) v = .error e := by
  unfold FilterCondition.make
  simp only [Operator.validateVal, hval, Bool.not_true, Bool.and_false]
  by_cases hn : v.isNone
  · exact ⟨.valueError ("Operator " ++ op ++ " requires a value"), by simp [hval, hreq, hn]⟩
  · exact ⟨.valueError ("Operator " ++ op ++ " requires an array of values"),
      by simp [hval, hreq, harr, hn, hseq]⟩

/-- Claim C3: construction with IN / NOT IN / BETWEEN / NOT BETWEEN and
a non-sequence value fails for every field and value — proved in the
first conjunct.  The second half of the claim — BETWEEN / NOT BETWEEN
also fail on a sequence whose length is not 2 — is refuted by the
second conjunct: __post_init__ only checks isinstance(value,
(list, tuple)) and accepts a three-element BETWEEN list, deferring the
failure to query compilation (checkCondition) as a TypeError instead of
a construction-time validation error. -/
theorem c3_array_operator_validation :
    (∀ (f : String) (v : PyVal), v.isSeq = false →
      (∃ e, FilterCondition.make f (.str "IN") v = .error e) ∧
      (∃ e, FilterCondition.make f (.str "NOT IN") v = .error e) ∧
      (∃ e, FilterCondition.make f (.str "BETWEEN") v = .error e) ∧
      (∃ e, FilterCondition.make f (.str "NOT BETWEEN") v = .error e)) ∧
    FilterCondition.make "age" (.str "BETWEEN") (.list [.int 1, .int 2, .int 3]) =
      .ok ⟨"age", "BETWEEN", .list [.int 1, .int 2, .int 3]⟩ ∧
    checkCondition ⟨"age", "BETWEEN", .list [.int 1, .int 2, .int 3]⟩ =
      .error (.typeError "between expects exactly two bound arguments") := by
  refine ⟨?_, rfl, rfl⟩
  intro f v hseq
  exact ⟨make_array_rejects f v "IN" rfl rfl rfl hseq,
         make_array_rejects f v "NOT IN" rfl rfl rfl hseq,
         make_array_rejects f v "BETWEEN" rfl rfl rfl hseq,
         make_array_rejects f v "NOT BETWEEN" rfl rfl rfl hseq⟩

/-- Witness for claim C3 at a concrete non-sequence value. -/
theorem c3_array_operator_validation_witness :
    ∃ e, FilterCondition.make "status" (.str "IN") (.int 5) = .error e :=
  (c3_array_operator_validation.1 "status" (.int 5) rfl).1

/-- Counterexample for claim C4: at the concrete model User with no
declared relations, where_has and where_doesnt_have fail with
InvalidQueryException — a member of the model-exception family, not of
the relation-exception family the claimed RelationNotFound variant
would belong to (the taxonomy has no relation-not-found class at all) —
and with_ does not fail: it silently records the eager load. -/
theorem c4_relation_error_counterexample :
    (Builder.init ⟨"User", []⟩).where_has "posts" =
      .error (.invalidQuery "Relation posts not found on User") ∧
    (Builder.init ⟨"User", []⟩).where_doesnt_have "posts" =
      .error (.invalidQuery "Relation posts not found on User") ∧
    isRelationErr (.invalidQuery "Relation posts not found on User") = false ∧
    (Builder.init ⟨"User", []⟩).with_ "posts" =
      { Builder.init ⟨"User", []⟩ with
          eagerLoads := ["posts"], afterLoadMarks := ["posts"] } :=
  ⟨rfl, rfl, rfl, rfl⟩

/-- Claim C4 as amended: for every relation name not declared on the
builder's model, where_has and where_doesnt_have fail with an
InvalidQueryException whose message names the relation and the model,
while with_ performs no validation and records the eager-load request
without failing. -/
theorem c4_undeclared_relation_error (b : Builder) (rel : String)
    (h : b.model.relations.contains rel = false) :
    b.where_has rel =
      .error (.invalidQuery ("Relation " ++ rel ++ " not found on " ++ b.model.name)) ∧
    b.where_doesnt_have rel =
      .error (.invalidQuery ("Relation " ++ rel ++ " not found on " ++ b.model.name)) ∧
    b.with_ rel = { b with eagerLoads := dictSetKey b.eagerLoads rel,
                           afterLoadMarks := b.afterLoadMarks ++ [rel] } := by
  unfold Builder.where_has Builder.where_doesnt_have Builder.with_
  rw [h]
  simp

/-- Witness for claim C4 at a model with no relations. -/
theorem c4_undeclared_relation_error_witness :
    (Builder.init ⟨"User", []⟩).where_has "posts" =
      .error (.invalidQuery ("Relation " ++ "posts" ++ " not found on " ++ "User")) :=
  (c4_undeclared_relation_error (Builder.init ⟨"User", []⟩) "posts" rfl).1

/-- Claim C6: sync issues a detach of exactly the current ids missing
from the desired collection and an attach of exactly the desired ids
not currently present, never touches an id in the intersection on
either side, and the issued calls converge the pivot set to the desired
set; the last conjunct is the spec's concrete instance — current
pivot ids 2,3,4 synced to 1,2,3 detaches only 4 and attaches only 1. -/
theorem c6_sync_minimal_diff (C : Finset Int) (D : List Int) :
    (ManyToMany.sync C D).detachedIds = C \ D.toFinset ∧
    (ManyToMany.sync C D).attachedIds = D.toFinset \ C ∧
    (∀ i ∈ C ∩ D.toFinset,
       i ∉ (ManyToMany.sync C D).detachedIds ∧ i ∉ (ManyToMany.sync C D).attachedIds) ∧
    (ManyToMany.sync C D).applyTo C = D.toFinset ∧
    ManyToMany.sync {2, 3, 4} [1, 2, 3] = ⟨some {4}, some {1}⟩ := by
  have hd : (ManyToMany.sync C D).detachedIds = C \ D.toFinset := by
    unfold ManyToMany.sync SyncOps.detachedIds getIds
    by_cases h : C \ D.toFinset = ∅ <;> simp [h]
  have ha : (ManyToMany.sync C D).attachedIds = D.toFinset \ C := by
    unfold ManyToMany.sync SyncOps.attachedIds getIds
    by_cases h : D.toFinset \ C = ∅ <;> simp [h]
  refine ⟨hd, ha, ?_, ?_, by decide⟩
  · intro i hi
    rw [Finset.mem_inter] at hi
    constructor
    · rw [hd, Finset.mem_sdiff]
      exact fun hc => hc.2 hi.2
    · rw [ha, Finset.mem_sdiff]
      exact fun hc => hc.2 hi.1
  · unfold SyncOps.applyTo
    rw [hd, ha, Finset.sdiff_sdiff_self_left]
    ext a
    simp only [Finset.mem_union, Finset.mem_inter, Finset.mem_sdiff]
    tauto

/-- Witness for claim C6: the untouched-intersection conjunct at the
spec's concrete instance. -/
theorem c6_sync_minimal_diff_witness :
    (2 : Int) ∉ (ManyToMany.sync {2, 3, 4} [1, 2, 3]).detachedIds ∧
    (2 : Int) ∉ (ManyToMany.sync {2, 3, 4} [1, 2, 3]).attachedIds :=
  (c6_sync_minimal_diff {2, 3, 4} [1, 2, 3]).2.2.1 2 (by decide)

/-- Claim C9: for every builder state and negative argument, take and
skip fail with InvalidQueryException.  In the source the negativity
check precedes the assignment to the limit / offset slot, which the
embedding mirrors: a failing call produces only the error, never an
updated builder, so the stored limit, offset and all other accumulated
state are exactly as before the call. -/
theorem c9_negative_take_skip_fail (b : Builder) (n : Int) (h : n < 0) :
    b.take n = .error (.invalidQuery "The limit must be positive") ∧
    b.skip n = .error (.invalidQuery "The offset must be positive") := by
  unfold Builder.take Builder.skip
  simp [h]

/-- Witness for claim C9 at take(-1) / skip(-1). -/
theorem c9_negative_take_skip_fail_witness :
    (Builder.init ⟨"User", []⟩).take (-1) =
      .error (.invalidQuery "The limit must be positive") ∧
    (Builder.init ⟨"User", []⟩).skip (-1) =
      .error (.invalidQuery "The offset must be positive") :=
  c9_negative_take_skip_fail (Builder.init ⟨"User", []⟩) (-1) (by decide)

/-- Length of an ordered insertion. -/
theorem length_insertLe (le : Row → Row → Bool) (x : Row) (ys : List Row) :
    (insertLe le x ys).length = ys.length + 1 := by
  induction ys with
  | nil => rfl
  | cons y ys ih =>
    unfold insertLe
    by_cases h : le x y <;> simp [h, ih]

/-- Sorting preserves the row count. -/
theorem length_sortRows (le : Row → Row → Bool) (xs : List Row) :
    (sortRows le xs).length = xs.length := by
  induction xs with
  | nil => rfl
  | cons x xs ih =>
    unfold sortRows
    rw [length_insertLe, ih]
    rfl

/-- Row count of an executed compiled query: the offset / limit window
over the filtered and grouped row count (ordering cannot change it). -/
theorem eval_length (ext : QueryExtra → Row → Bool) (q : CompiledQuery) (t : List Row) :
    (q.eval ext t).length =
      windowLen q.limit q.offset (applyGroups q.groups (t.filter (rowMatches ext q))).length := by
  unfold CompiledQuery.eval windowLen
  cases q.limit <;> cases q.offset <;>
    simp [length_sortRows, List.length_take, List.length_drop]

/-- Successful order_by only appends the lower-cased sort spec. -/
theorem order_by_ok (b b2 : Builder) (c d : String)
    (h : b.order_by c d = .ok b2) :
    b2 = { b with orders := b.orders ++ [(c, strLower d)] } := by
  simp only [Builder.order_by] at h
  split_ifs at h with hc
  cases h
  rfl

/-- Successful compilation copies the builder state fields into the
compiled query unchanged. -/
theorem buildQuery_ok_fields (b : Builder) (q : CompiledQuery) (h : b.buildQuery = .ok q) :
    q.extras = b.queryExtras ∧ q.filters = b.filters ∧ q.orders = b.orders ∧
    q.groups = b.groups ∧ q.limit = b.limit ∧ q.offset = b.offset := by
  unfold Builder.buildQuery at h
  cases hc : checkConditions b.filters with
  | error e => simp [hc] at h
  | ok u =>
    cases hog : buildOrGroups b.orFilters with
    | error e => simp [hc, hog] at h
    | ok ogs =>
      simp [hc, hog] at h
      subst h
      exact ⟨rfl, rfl, rfl, rfl, rfl, rfl⟩

/-- Claim C2 as amended: count() counts the rows of the fully compiled
query.  Its value is never changed by an order_by call (first
conjunct), but — contrary to the claim — the compiled subquery keeps
the builder's limit and offset, so the count is the size of the
offset / limit window over the filtered (and grouped) rows (second
conjunct), not the unwindowed filter count. -/
theorem c2_count_window (ext : QueryExtra → Row → Bool) (b : Builder) (t : List Row) :
    (∀ col dir b2, b.order_by col dir = .ok b2 → b2.count ext t = b.count ext t) ∧
    (∀ q, b.buildQuery = .ok q →
      b.count ext t = .ok (windowLen q.limit q.offset
        ((applyGroups q.groups (t.filter (rowMatches ext q))).length))) := by
  constructor
  · intro col dir b2 h
    rw [order_by_ok b b2 col dir h]
    unfold Builder.count Builder.buildQuery
    cases hc : checkConditions b.filters with
    | error e => simp [hc]
    | ok u =>
      cases hog : buildOrGroups b.orFilters with
      | error e => simp [hc, hog]
      | ok ogs =>
        simp [hc, hog, eval_length]
        rfl
  · intro q hq
    unfold Builder.count
    rw [hq]
    simp [eval_length]

/-- Witness for claim C2: the window formula at a one-row table. -/
theorem c2_count_window_witness :
    (Builder.init ⟨"User", []⟩).count (fun _ _ => true) [[("id", PyVal.int 1)]] = .ok 1 :=
  (c2_count_window (fun _ _ => true) (Builder.init ⟨"User", []⟩)
    [[("id", PyVal.int 1)]]).2 ⟨[], [], [], [], [], .none, .none⟩ rfl

/-- Counterexample for claim C2: on a two-row table the builder counts
2 before take(1) and 1 after it, so the value returned by count() does
depend on a preceding take — the claim that count ignores the stored
limit is false on the code (_build_query keeps limit and offset in the
counted subquery). -/
theorem c2_count_counterexample :
    (Builder.init ⟨"User", []⟩).count (fun _ _ => true)
        [[("id", .int 1)], [("id", .int 2)]] = .ok 2 ∧
    (Builder.init ⟨"User", []⟩).take 1 =
      .ok { Builder.init ⟨"User", []⟩ with limit := some 1 } ∧
    ({ Builder.init ⟨"User", []⟩ with limit := some 1 } : Builder).count (fun _ _ => true)
        [[("id", .int 1)], [("id", .int 2)]] = .ok 1 :=
  ⟨rfl, rfl, rfl⟩

/-- Claim C8: successive order_by calls compose left-to-right — the
resulting state is the previous sort list with the new spec appended
(first conjunct, so a later call never overwrites an earlier one),
compilation copies the sort list in declaration order (second
conjunct), a strict comparison on the first-declared key decides the
row order no matter what later keys say (third conjunct), and on a
concrete table order_by a ascending then b descending sorts with a as
the primary ascending key and b as the secondary descending key
(fourth conjunct). -/
theorem c8_order_by_composition (b : Builder) (c1 d1 c2 d2 : String) (b1 b2 : Builder)
    (h1 : b.order_by c1 d1 = .ok b1) (h2 : b1.order_by c2 d2 = .ok b2) :
    b2.orders = b.orders ++ [(c1, strLower d1), (c2, strLower d2)] ∧
    (∀ q, b2.buildQuery = .ok q → q.orders = b2.orders) ∧
    (∀ (col : String) (rest : List (String × String)) (r1 r2 : Row),
      (pyCompare (getAttr r1 col) (getAttr r2 col) = some Ordering.lt →
        rowLe ((col, "asc") :: rest) r1 r2 = true) ∧
      (pyCompare (getAttr r1 col) (getAttr r2 col) = some Ordering.gt →
        rowLe ((col, "asc") :: rest) r1 r2 = false)) ∧
    ({ Builder.init ⟨"User", []⟩ with orders := [("a", "asc"), ("b", "desc")] } : Builder).get
        (fun _ _ => true)
        [[("a", .int 2), ("b", .int 9)], [("a", .int 1), ("b", .int 0)],
         [("a", .int 1), ("b", .int 5)]] =
      .ok [[("a", .int 1), ("b", .int 5)], [("a", .int 1), ("b", .int 0)],
           [("a", .int 2), ("b", .int 9)]] := by
  have e1 := order_by_ok b b1 c1 d1 h1
  subst e1
  have e2 := order_by_ok _ b2 c2 d2 h2
  subst e2
  refine ⟨by simp, ?_, ?_, rfl⟩
  · intro q hq
    exact (buildQuery_ok_fields _ q hq).2.2.1
  · intro col rest r1 r2
    constructor <;> intro hcmp <;> simp [rowLe, hcmp]

/-- Witness for claim C8: the appended sort list after the two calls of
the claim. -/
theorem c8_order_by_composition_witness :
    ({ Builder.init ⟨"User", []⟩ with orders := [("a", "asc"), ("b", "desc")] } : Builder).orders
      = [("a", "asc"), ("b", "desc")] :=
  (c8_order_by_composition (Builder.init ⟨"User", []⟩) "a" "asc" "b" "desc"
    { Builder.init ⟨"User", []⟩ with orders := [("a", "asc")] }
    { Builder.init ⟨"User", []⟩ with orders := [("a", "asc"), ("b", "desc")] }
    rfl rfl).1

/-- Claim C10: cursor_paginate tests the cursor arguments for Python
truthiness, not for presence.  When both after and before are falsy —
as for the legitimate cursor values 0 or the empty string — no cursor
filter is applied and the result is identical to paginating with no
cursor at all; and a truthy after makes the before argument irrelevant
(the lower-bound branch shadows the upper-bound branch). -/
theorem c10_cursor_truthiness (b : Builder) (ext : QueryExtra → Row → Bool)
    (t : List Row) (field : String) (limit : Int) (after before : PyVal) :
    (after.truthy = false → before.truthy = false →
      b.cursor_paginate ext t field limit after before =
        b.cursor_paginate ext t field limit .none .none) ∧
    (after.truthy = true →
      b.cursor_paginate ext t field limit after before =
        b.cursor_paginate ext t field limit after .none) := by
  constructor
  · intro h1 h2
    unfold Builder.cursor_paginate Builder.take
    simp only [h1, h2]
    by_cases hneg : limit + 1 < 0
    · simp [hneg]
    · simp only [hneg]
      rfl
  · intro h1
    unfold Builder.cursor_paginate Builder.take
    simp only [h1]
    by_cases hneg : limit + 1 < 0
    · simp [hneg]
    · simp only [hneg, if_false, ite_false]
      cases hm : FilterCondition.make field (PyVal.str ">") after with
      | error e => simp [Builder.where, hm]
      | ok c =>
        simp only [Builder.where, hm]
        rfl

/-- Witness for claim C10: paginating with the falsy integer cursor 0
equals paginating with no cursor. -/
theorem c10_cursor_truthiness_witness :
    (Builder.init ⟨"User", []⟩).cursor_paginate (fun _ _ => true) [[("id", PyVal.int 1)]]
        "id" 15 (.int 0) .none =
      (Builder.init ⟨"User", []⟩).cursor_paginate (fun _ _ => true) [[("id", PyVal.int 1)]]
        "id" 15 .none .none :=
  (c10_cursor_truthiness (Builder.init ⟨"User", []⟩) (fun _ _ => true)
    [[("id", PyVal.int 1)]] "id" 15 (.int 0) .none).1 rfl rfl

/-- Successful skip only stores the offset. -/
theorem skip_ok (b : Builder) (o : Int) (h : 0 ≤ o) :
    b.skip o = .ok { b with offset := some o } := by
  unfold Builder.skip
  rw [if_neg (by omega)]

/-- Successful take only stores the limit. -/
theorem take_ok (b : Builder) (l : Int) (h : 0 ≤ l) :
    b.take l = .ok { b with limit := some l } := by
  unfold Builder.take
  rw [if_neg (by omega)]

/-- Updating only the limit and offset slots of a compiling builder
updates only the window of its compiled query. -/
theorem buildQuery_window (b : Builder) (q : CompiledQuery) (h : b.buildQuery = .ok q)
    (l o : Option Int) :
    ({ b with limit := l, offset := o } : Builder).buildQuery =
      .ok { q with limit := l, offset := o } := by
  unfold Builder.buildQuery at h ⊢
  cases hc : checkConditions b.filters with
  | error e => simp [hc] at h
  | ok u =>
    cases hog : buildOrGroups b.orFilters with
    | error e => simp [hc, hog] at h
    | ok ogs =>
      simp only [hc, hog] at h ⊢
      cases h
      simp

/-- Evaluation with a concrete window is the drop / take of the
unwindowed evaluation. -/
theorem eval_window (ext : QueryExtra → Row → Bool) (q : CompiledQuery) (t : List Row)
    (l o : Int) :
    CompiledQuery.eval ext { q with limit := some l, offset := some o } t =
      ((CompiledQuery.eval ext { q with limit := Option.none, offset := Option.none } t).drop
        o.toNat).take l.toNat := rfl

/-- Collapsing group keys never adds rows. -/
theorem length_dedupByKeys_le (cols : List String) (seen : List (List PyVal)) (rows : List Row) :
    (dedupByKeys cols seen rows).length ≤ rows.length := by
  induction rows generalizing seen with
  | nil => simp [dedupByKeys]
  | cons r rs ih =>
    unfold dedupByKeys
    by_cases h : seen.any (fun k2 => PyVal.beqList k2 (groupKey cols r))
    · simp only [h, if_true]
      exact Nat.le_succ_of_le (ih seen)
    · simp only [h, if_false]
      simpa using ih (groupKey cols r :: seen)

/-- The GROUP BY stage never adds rows. -/
theorem length_applyGroups_le (cols : List String) (rows : List Row) :
    (applyGroups cols rows).length ≤ rows.length := by
  unfold applyGroups
  by_cases h : cols.isEmpty <;> simp [h, length_dedupByKeys_le]

/-- An unwindowed evaluation returns at most as many rows as the data
source holds. -/
theorem length_eval_le (ext : QueryExtra → Row → Bool) (q : CompiledQuery) (t : List Row) :
    (CompiledQuery.eval ext { q with limit := Option.none, offset := Option.none } t).length ≤
      t.length := by
  rw [eval_length]
  unfold windowLen
  simp only
  calc (applyGroups _ (t.filter _)).length
      ≤ (t.filter (rowMatches ext { q with limit := Option.none, offset := Option.none })).length :=
        length_applyGroups_le _ _
    _ ≤ t.length := List.length_filter_le _ _

/-- Shape of the reference chunking: with a positive size and a budget
above the list length, the page sizes are the size repeated, followed
by the short remainder when the size does not divide the length, and
the pages concatenate back to the list. -/
theorem chunkSlices_spec (c : Nat) (hc : 0 < c) :
    ∀ (fuel : Nat) (xs : List Row), xs.length < fuel →
      ((chunkSlices c fuel xs).map List.length =
        List.replicate (xs.length / c) c ++
          (if xs.length % c = 0 then [] else [xs.length % c])) ∧
      (chunkSlices c fuel xs).flatten = xs := by
  intro fuel
  induction fuel with
  | zero => intro xs h; omega
  | succ fuel ih =>
    intro xs hlen
    match xs with
    | [] => simp [chunkSlices]
    | a :: as =>
      unfold chunkSlices
      have hje : ((a :: as).take c).isEmpty = false := by
        cases c with
        | zero => omega
        | succ c2 => simp
      by_cases hshort : (a :: as).length < c
      · have hrl : ((a :: as).take c).length < c := by
          rw [List.length_take]; omega
        have hta : (a :: as).take c = a :: as := List.take_of_length_le (by omega)
        simp only [hje, Bool.false_eq_true, if_false]
        rw [if_pos hrl, hta]
        refine ⟨?_, by simp⟩
        have h1 : as.length + 1 < c := by simpa using hshort
        simp only [List.map_cons, List.map_nil, List.length_cons]
        rw [Nat.div_eq_of_lt h1, Nat.mod_eq_of_lt h1]
        simp
      · have hrl : ¬ (((a :: as).take c).length < c) := by
          rw [List.length_take]; omega
        have hge : c ≤ (a :: as).length := by omega
        have ih2 := ih ((a :: as).drop c) (by rw [List.length_drop]; omega)
        simp only [hje, Bool.false_eq_true, if_false, List.map_cons]
        rw [if_neg hrl]
        constructor
        · simp only [List.map_cons, ih2.1]
          have hcl : ((a :: as).take c).length = c := by rw [List.length_take]; omega
          rw [hcl, List.length_drop]
          rw [Nat.div_eq_sub_div hc hge, Nat.mod_eq_sub_mod hge, List.replicate_succ]
          simp
        · simp only [List.flatten_cons, ih2.2]
          exact List.take_append_drop c (a :: as)

/-- Fetching on a builder whose offset and limit were just set returns
the corresponding window of the unwindowed evaluation. -/
theorem get_window (b : Builder) (qb : CompiledQuery) (h : b.buildQuery = .ok qb)
    (ext : QueryExtra → Row → Bool) (t : List Row) (l o : Int) :
    Builder.get { { b with offset := some o } with limit := some l } ext t =
      .ok (((CompiledQuery.eval ext { qb with limit := Option.none, offset := Option.none }
        t).drop o.toNat).take l.toNat) := by
  have hbq : ({ { b with offset := some o } with limit := some l } : Builder).buildQuery
      = .ok { qb with limit := some l, offset := some o } :=
    buildQuery_window b qb h (some l) (some o)
  unfold Builder.get
  rw [hbq]
  rfl

/-- The chunk loop, run from any page with enough budget, produces
exactly the reference pages of the remaining matching rows. -/
theorem chunkLoop_slices (ext : QueryExtra → Row → Bool) (t : List Row) (c : Int) (hc : 1 ≤ c)
    (xs0 : List Row) :
    ∀ (fuel : Nat) (b : Builder) (qb : CompiledQuery) (page : Int),
      b.buildQuery = .ok qb →
      CompiledQuery.eval ext { qb with limit := Option.none, offset := Option.none } t = xs0 →
      1 ≤ page →
      (xs0.drop ((page - 1) * c).toNat).length < fuel →
      Builder.chunkLoop b ext t c page fuel =
        .ok (chunkSlices c.toNat fuel (xs0.drop ((page - 1) * c).toNat)) := by
  intro fuel
  induction fuel with
  | zero => intro b qb page hq hbase hp hf; omega
  | succ fuel ih =>
    intro b qb page hq hbase hp hf
    have hX : (0:Int) ≤ (page - 1) * c := mul_nonneg (by omega) (by omega)
    have h1 := skip_ok b ((page - 1) * c) hX
    have h2 := take_ok { b with offset := some ((page - 1) * c) } c (by omega)
    have h3 := get_window b qb hq ext t c ((page - 1) * c)
    rw [hbase] at h3
    unfold Builder.chunkLoop
    simp only [h1, h2, h3]
    unfold chunkSlices
    by_cases hemp : ((xs0.drop ((page - 1) * c).toNat).take c.toNat).isEmpty
    · rw [if_pos hemp, if_pos hemp]
    · rw [if_neg hemp, if_neg hemp]
      by_cases hshort :
        (((xs0.drop ((page - 1) * c).toNat).take c.toNat).length : Int) < c
      · have hshort2 : ((xs0.drop ((page - 1) * c).toNat).take c.toNat).length < c.toNat := by
          omega
        rw [if_pos hshort, if_pos hshort2]
      · have hlong : ¬ (((xs0.drop ((page - 1) * c).toNat).take c.toNat).length < c.toNat) := by
          omega
        rw [if_neg hshort, if_neg hlong]
        have hrestlen : c.toNat ≤ (xs0.drop ((page - 1) * c).toNat).length := by
          by_contra hlt
          push_neg at hlt
          apply hlong
          rw [List.length_take]
          exact lt_of_le_of_lt (min_le_right _ _) hlt
        have hXc : (page + 1 - 1) * c = (page - 1) * c + c := by ring
        have hrecdrop : xs0.drop ((page + 1 - 1) * c).toNat
            = (xs0.drop ((page - 1) * c).toNat).drop c.toNat := by
          rw [hXc, List.drop_drop]
          congr 1
          omega
        have hf2 : (xs0.drop ((page + 1 - 1) * c).toNat).length < fuel := by
          rw [hrecdrop, List.length_drop]
          omega
        have hrec := ih { { b with offset := some ((page - 1) * c) } with limit := some c }
          { qb with limit := some c, offset := some ((page - 1) * c) } (page + 1)
          (buildQuery_window b qb hq (some c) (some ((page - 1) * c))) hbase (by omega) hf2
        rw [hrecdrop] at hrec
        rw [hrec]

/-- Claim C7: over a data source whose compiled query matches n rows,
chunk with a positive size invokes the callback with full pages of that
size followed by one short page of the remainder when the size does not
divide n — ceil(n / size) invocations in total, zero of them when n is
0 — the pages concatenate to exactly the matching rows, and chunk
returns the success indicator True in every case. -/
theorem c7_chunk_pages (ext : QueryExtra → Row → Bool) (b : Builder) (t : List Row)
    (c : Int) (q : CompiledQuery) (hq : b.buildQuery = .ok q) (hc : 1 ≤ c) :
    ∃ pages, b.chunk ext t c = .ok (pages, true) ∧
      pages.map List.length =
        List.replicate ((q.unlimited.eval ext t).length / c.toNat) c.toNat ++
          (if (q.unlimited.eval ext t).length % c.toNat = 0 then []
           else [(q.unlimited.eval ext t).length % c.toNat]) ∧
      pages.flatten = q.unlimited.eval ext t ∧
      pages.length = (q.unlimited.eval ext t).length / c.toNat +
        (if (q.unlimited.eval ext t).length % c.toNat = 0 then 0 else 1) := by
  have hlen : (q.unlimited.eval ext t).length ≤ t.length := length_eval_le ext q t
  have h0 : ((1:Int) - 1) * c = 0 := by ring
  have hdrop0 : (q.unlimited.eval ext t).drop (((1:Int) - 1) * c).toNat
      = q.unlimited.eval ext t := by
    rw [h0]
    rfl
  have hf : ((q.unlimited.eval ext t).drop (((1:Int) - 1) * c).toNat).length < t.length + 1 := by
    rw [hdrop0]
    omega
  have hloop := chunkLoop_slices ext t c hc (q.unlimited.eval ext t) (t.length + 1) b q 1
    hq rfl (by omega) hf
  rw [hdrop0] at hloop
  have hspec := chunkSlices_spec c.toNat (by omega) (t.length + 1) (q.unlimited.eval ext t)
    (by omega)
  refine ⟨chunkSlices c.toNat (t.length + 1) (q.unlimited.eval ext t), ?_, hspec.1, hspec.2, ?_⟩
  · unfold Builder.chunk
    rw [hloop]
  · have hcong := congrArg List.length hspec.1
    simpa [List.length_append, apply_ite List.length] using hcong

/-- Witness for claim C7: five rows in chunks of two give pages of
sizes 2, 2, 1. -/
theorem c7_chunk_pages_witness :
    ∃ pages, (Builder.init ⟨"User", []⟩).chunk (fun _ _ => true)
        [[("id", PyVal.int 1)], [("id", PyVal.int 2)], [("id", PyVal.int 3)],
         [("id", PyVal.int 4)], [("id", PyVal.int 5)]] 2 = .ok (pages, true) ∧
      pages.map List.length = [2, 2, 1] ∧
      pages.flatten =
        [[("id", PyVal.int 1)], [("id", PyVal.int 2)], [("id", PyVal.int 3)],
         [("id", PyVal.int 4)], [("id", PyVal.int 5)]] ∧
      pages.length = 3 :=
  c7_chunk_pages (fun _ _ => true) (Builder.init ⟨"User", []⟩)
    [[("id", PyVal.int 1)], [("id", PyVal.int 2)], [("id", PyVal.int 3)],
     [("id", PyVal.int 4)], [("id", PyVal.int 5)]] 2
    ⟨[], [], [], [], [], .none, .none⟩ rfl (by decide)

/-- Updating only the cursor spec and limit of a compiling builder
updates only the limit of its compiled query. -/
theorem buildQuery_cursor_limit (b : Builder) (q : CompiledQuery) (h : b.buildQuery = .ok q)
    (cs : Option CursorSpec) (l : Option Int) :
    ({ { b with cursor := cs } with limit := l } : Builder).buildQuery =
      .ok { q with limit := l } := by
  unfold Builder.buildQuery at h ⊢
  cases hc : checkConditions b.filters with
  | error e => simp [hc] at h
  | ok u =>
    cases hog : buildOrGroups b.orFilters with
    | error e => simp [hc, hog] at h
    | ok ogs =>
      simp only [hc, hog] at h ⊢
      cases h
      simp

/-- Claim C5 as amended: for every limit of at least 1, cursor
pagination fetches at most limit+1 rows (first conjunct); when more
than limit rows match it returns exactly limit items with has_more and
next_cursor equal to the cursor-field value of the last returned item
and previous_cursor that of the first (second conjunct); when at most
limit rows match it returns them all with has_more false, no
next_cursor, and previous_cursor the first returned item's value
whenever the page is non-empty (third conjunct; the head?-based form is
None exactly on the empty page, as the source computes). -/
theorem c5_cursor_window (ext : QueryExtra → Row → Bool) (b : Builder) (t : List Row)
    (field : String) (L : Int) (q : CompiledQuery)
    (hq : b.buildQuery = .ok q) (hL : 1 ≤ L) :
    ((CompiledQuery.eval ext { q with limit := some (L + 1) } t).length : Int) ≤ L + 1 ∧
    (L < ((CompiledQuery.eval ext { q with limit := Option.none } t).length : Int) →
      b.cursor_paginate ext t field L .none .none =
        .ok ⟨(CompiledQuery.eval ext { q with limit := Option.none } t).take L.toNat,
          true, field, L,
          ((((CompiledQuery.eval ext { q with limit := Option.none } t).take L.toNat).getLast?).map
            (fun r => getAttr r field)).getD .none,
          ((((CompiledQuery.eval ext { q with limit := Option.none } t).take L.toNat).head?).map
            (fun r => getAttr r field)).getD .none⟩ ∧
      ((CompiledQuery.eval ext { q with limit := Option.none } t).take L.toNat).length = L.toNat) ∧
    (((CompiledQuery.eval ext { q with limit := Option.none } t).length : Int) ≤ L →
      b.cursor_paginate ext t field L .none .none =
        .ok ⟨CompiledQuery.eval ext { q with limit := Option.none } t, false, field, L, .none,
          (((CompiledQuery.eval ext { q with limit := Option.none } t).head?).map
            (fun r => getAttr r field)).getD .none⟩) := by
  have hfetch : CompiledQuery.eval ext { q with limit := some (L + 1) } t =
      (CompiledQuery.eval ext { q with limit := Option.none } t).take (L + 1).toNat := rfl
  have htake := take_ok ({ b with cursor := some ⟨field, PyVal.none, PyVal.none⟩ } : Builder)
    (L + 1) (by omega)
  have hget : Builder.get
      { { b with cursor := some ⟨field, PyVal.none, PyVal.none⟩ } with limit := some (L + 1) }
      ext t =
      .ok ((CompiledQuery.eval ext { q with limit := Option.none } t).take (L + 1).toNat) := by
    have hbq := buildQuery_cursor_limit b q hq
      (some ⟨field, PyVal.none, PyVal.none⟩) (some (L + 1))
    unfold Builder.get
    rw [hbq]
    rfl
  refine ⟨?_, ?_, ?_⟩
  · rw [hfetch, List.length_take]
    have := min_le_left (L + 1).toNat
      (CompiledQuery.eval ext { q with limit := Option.none } t).length
    omega
  · intro hgt
    unfold Builder.cursor_paginate
    simp only [htake, PyVal.truthy, Bool.false_eq_true, if_false, hget]
    have hml : ((CompiledQuery.eval ext { q with limit := Option.none } t).take
        (L + 1).toNat).length = (L + 1).toNat := by
      rw [List.length_take]
      exact min_eq_left (by omega)
    have hhm : (((CompiledQuery.eval ext { q with limit := Option.none } t).take
        (L + 1).toNat).length : Int) > L := by
      rw [hml]
      omega
    have hdec : decide ((((CompiledQuery.eval ext { q with limit := Option.none } t).take
        (L + 1).toNat).length : Int) > L) = true := decide_eq_true hhm
    simp only [if_pos hhm, hdec, pyTake, if_neg (by omega : ¬ L < (0:Int)), List.take_take]
    have hmin : min L.toNat (L + 1).toNat = L.toNat := min_eq_left (by omega)
    rw [hmin]
    have hlt : (CompiledQuery.eval ext { q with limit := Option.none } t).take L.toNat ≠ [] := by
      intro hnil
      have hlen0 := congrArg List.length hnil
      rw [List.length_take, List.length_nil] at hlen0
      have h1 : L.toNat ≤ (CompiledQuery.eval ext { q with limit := Option.none } t).length := by
        omega
      rw [min_eq_left h1] at hlen0
      omega
    cases hlast : ((CompiledQuery.eval ext { q with limit := Option.none } t).take
        L.toNat).getLast? with
    | none => exact absurd (List.getLast?_eq_none_iff.mp hlast) hlt
    | some r =>
      have hie : ((CompiledQuery.eval ext { q with limit := Option.none } t).take
          L.toNat).isEmpty = false := by
        cases hh : (CompiledQuery.eval ext { q with limit := Option.none } t).take L.toNat with
        | nil => exact absurd hh hlt
        | cons x xs => rfl
      simp only [hlast, hie, Bool.not_false, if_true, Option.map_some', Option.getD_some]
      constructor
      · trivial
      · rw [List.length_take]
        exact min_eq_left (by omega)
  · intro hle
    unfold Builder.cursor_paginate
    simp only [htake, PyVal.truthy, Bool.false_eq_true, if_false, hget]
    have hta : (CompiledQuery.eval ext { q with limit := Option.none } t).take (L + 1).toNat =
        CompiledQuery.eval ext { q with limit := Option.none } t :=
      List.take_of_length_le (by omega)
    rw [hta]
    have hhm : ¬ (((CompiledQuery.eval ext { q with limit := Option.none } t).length : Int) > L) := by
      omega
    have hdec : decide (((CompiledQuery.eval ext { q with limit := Option.none } t).length : Int)
        > L) = false := decide_eq_false hhm
    simp only [if_neg hhm, hdec]
    by_cases hbe : (CompiledQuery.eval ext { q with limit := Option.none } t).isEmpty
    · rw [List.isEmpty_iff.mp hbe]
      rfl
    · have hbe2 : (CompiledQuery.eval ext { q with limit := Option.none } t).isEmpty = false := by
        cases hh : (CompiledQuery.eval ext { q with limit := Option.none } t).isEmpty
        · rfl
        · exact absurd hh hbe
      simp only [hbe2, Bool.not_false, if_true]

/-- Witness for claim C5: three matching rows with limit 2 give two
items, has_more, next_cursor 2 and previous_cursor 1. -/
theorem c5_cursor_window_witness :
    (Builder.init ⟨"User", []⟩).cursor_paginate (fun _ _ => true)
        [[("id", PyVal.int 1)], [("id", PyVal.int 2)], [("id", PyVal.int 3)]]
        "id" 2 .none .none =
      .ok ⟨[[("id", PyVal.int 1)], [("id", PyVal.int 2)]], true, "id", 2, .int 2, .int 1⟩ ∧
    ([[("id", PyVal.int 1)], [("id", PyVal.int 2)]] : List Row).length = 2 :=
  (c5_cursor_window (fun _ _ => true) (Builder.init ⟨"User", []⟩)
    [[("id", PyVal.int 1)], [("id", PyVal.int 2)], [("id", PyVal.int 3)]] "id" 2
    ⟨[], [], [], [], [], .none, .none⟩ rfl (by decide)).2.1 (by decide)

/-- Counterexample for claim C5: the claim quantifies over every limit,
but with limit 0 over one matching row the code fetches the row, sets
has_more, trims the page to zero items and then evaluates items[-1],
raising IndexError instead of returning a paginator. -/
theorem c5_cursor_limit_zero_crash :
    (Builder.init ⟨"User", []⟩).cursor_paginate (fun _ _ => true) [[("id", PyVal.int 1)]]
        "id" 0 .none .none = .error (.indexError "list index out of range") := rfl

end Pyloquent
